import Mathlib

/-!
# Verification of `stitch.py` (DJI recording organiser)

This file gives a shallow embedding, in Lean 4, of the Python script
`stitch.py`, which (a) organises DJI clips into `YYYY/MM/DD` folders and
(b) stitches temporally adjacent clips via an external concatenation tool,
and proves/refutes the specification claims about it.

Modelling conventions:
* filenames and log lines are `String`s;
* a directory is a finite association list `List (String × ℕ)` from file
  name to an abstract content tag (the tag lets us observe overwrites);
* clip start times are whole seconds-of-day (`ℕ`), probed durations are
  exact rationals (`ℚ`), so inter-clip gaps are rationals;
* the external collaborators (`ffprobe` duration and stream info, `ffmpeg`
  concat) are oracles passed in as a `Probe` structure; a raised
  `CalledProcessError` is modelled as `Except.error` carrying the
  filesystem state at the moment of the raise.
-/

/-! ## The grouping algorithm (`group_sequences`, stitch.py lines 98-116) -/

/-- Gap in seconds between the end of clip `i-1` (start + probed duration)
and the start of clip `i`, as computed at stitch.py line 106-107:
`gap = (starts[i] - (starts[i-1] + timedelta(seconds=durations[i-1]))).total_seconds()`. -/
def gapAt (starts durations : List ℚ) (i : ℕ) : ℚ :=
  starts.getD i 0 - (starts.getD (i - 1) 0 + durations.getD (i - 1) 0)

/-- Loop body of `group_sequences` (stitch.py lines 110-114): if the gap up
to clip `i` is at most `max_gap`, append `i` to the current run, otherwise
close the current run and start a new one at `i`. -/
def gsStep (starts durations : List ℚ) (max_gap : ℚ)
    (st : List (List ℕ) × List ℕ) (i : ℕ) : List (List ℕ) × List ℕ :=
  if gapAt starts durations i ≤ max_gap then (st.1, st.2 ++ [i])
  else (st.1 ++ [st.2], [i])

/-- `group_sequences(clips, starts, durations, max_gap)` from stitch.py
lines 98-116, over clip indices. `nclips` is `len(clips)`; the Python loop
`for i in range(1, len(clips))` starts from state `seqs = []`,
`current = [0]` and finally appends the current run. -/
def group_sequences (nclips : ℕ) (starts durations : List ℚ) (max_gap : ℚ) :
    List (List ℕ) :=
  let st := (List.range' 1 (nclips - 1)).foldl (gsStep starts durations max_gap) ([], [0])
  st.1 ++ [st.2]

/-- Relation between two consecutive clip indices inside one run: they are
adjacent and the gap between them is within `max_gap`. -/
def inRun (starts durations : List ℚ) (max_gap : ℚ) (a b : ℕ) : Prop :=
  b = a + 1 ∧ gapAt starts durations b ≤ max_gap

/-- Relation between two consecutive runs of the produced partition: the
first run ends at some index `a`, the next starts at `a + 1`, and the gap
at `a + 1` exceeds `max_gap`. -/
def runBoundary (starts durations : List ℚ) (max_gap : ℚ) (s t : List ℕ) : Prop :=
  ∀ a ∈ s.getLast?, ∀ b ∈ t.head?, b = a + 1 ∧ max_gap < gapAt starts durations b

/-- Invariant of the `group_sequences` fold: after processing indices
`1, …, k`, the closed runs together with the current run form a partition
of `0, …, k`, the current run ends at `k`, all runs are nonempty chains of
adjacent within-gap indices, and consecutive runs are separated by a gap
exceeding `max_gap`. -/
lemma gs_invariant (starts durations : List ℚ) (max_gap : ℚ) (k : ℕ) :
    (fun st : List (List ℕ) × List ℕ =>
      st.2.getLast? = some k ∧
      (st.1 ++ [st.2]).flatten = List.range (k + 1) ∧
      (∀ s ∈ st.1 ++ [st.2], s ≠ []) ∧
      (∀ s ∈ st.1 ++ [st.2], s.Chain' (inRun starts durations max_gap)) ∧
      (st.1 ++ [st.2]).Chain' (runBoundary starts durations max_gap))
    ((List.range' 1 k).foldl (gsStep starts durations max_gap) ([], [0])) := by
  induction k with
  | zero =>
    refine ⟨rfl, by simp [List.range_succ], ?_, ?_, ?_⟩
    · intro s hs; simp at hs; simp [hs]
    · intro s hs; simp at hs; simp [hs]
    · simp
  | succ k ih =>
    rw [List.range'_1_concat, List.foldl_append, List.foldl_cons, List.foldl_nil]
    have hadd : 1 + k = k + 1 := Nat.add_comm 1 k
    rw [hadd]
    set st := (List.range' 1 k).foldl (gsStep starts durations max_gap) ([], [0]) with hst
    obtain ⟨hlast, hflat, hne, hchain, hbound⟩ := ih
    have hcur_ne : st.2 ≠ [] := hne st.2 (by simp)
    unfold gsStep
    by_cases hgap : gapAt starts durations (k + 1) ≤ max_gap
    · -- the gap merges: append `k+1` to the current run
      simp only [if_pos hgap]
      refine ⟨List.getLast?_concat _, ?_, ?_, ?_, ?_⟩
      · simp only [List.flatten_append, List.flatten_cons, List.flatten_nil,
          List.append_nil] at hflat ⊢
        rw [← List.append_assoc, hflat, ← List.range_succ]
      · intro s hs
        rcases List.mem_append.1 hs with h | h
        · exact hne s (List.mem_append_left _ h)
        · simp at h; simp [h]
      · intro s hs
        rcases List.mem_append.1 hs with h | h
        · exact hchain s (List.mem_append_left _ h)
        · simp at h
          subst h
          rw [List.chain'_append]
          refine ⟨hchain st.2 (by simp), List.chain'_singleton _, ?_⟩
          intro x hx y hy
          rw [hlast] at hx
          simp at hx hy
          subst hx; subst hy
          exact ⟨rfl, hgap⟩
      · rw [List.chain'_append] at hbound ⊢
        refine ⟨hbound.1, List.chain'_singleton _, ?_⟩
        intro x hx y hy
        simp at hy
        subst hy
        intro a ha b hb
        have hb' : b ∈ st.2.head? := by
          rwa [List.head?_append_of_ne_nil _ hcur_ne] at hb
        exact hbound.2.2 x hx st.2 (by simp) a ha b hb'
    · -- the gap exceeds `max_gap`: close the current run, start a new one
      simp only [if_neg hgap]
      have hgap' : max_gap < gapAt starts durations (k + 1) := lt_of_not_le hgap
      refine ⟨rfl, ?_, ?_, ?_, ?_⟩
      · simp only [List.flatten_append, List.flatten_cons, List.flatten_nil,
          List.append_nil] at hflat ⊢
        rw [hflat, ← List.range_succ]
      · intro s hs
        rcases List.mem_append.1 hs with h | h
        · exact hne s h
        · simp at h; simp [h]
      · intro s hs
        rcases List.mem_append.1 hs with h | h
        · exact hchain s h
        · simp at h; subst h; exact List.chain'_singleton _
      · rw [List.chain'_append]
        refine ⟨hbound, List.chain'_singleton _, ?_⟩
        intro x hx y hy
        rw [List.getLast?_concat] at hx
        simp at hx hy
        subst hx; subst hy
        intro a ha b hb
        rw [hlast] at ha
        simp at ha hb
        subst ha; subst hb
        exact ⟨rfl, hgap'⟩

/-- Partition property of `group_sequences` for a nonempty clip list: the
runs flatten to exactly the index list `0, …, nclips-1` (every clip in
exactly one run, runs contiguous), runs are nonempty, within a run
consecutive clips are adjacent with gap at most `max_gap`, and at every
run boundary the gap exceeds `max_gap`. -/
lemma group_sequences_spec (nclips : ℕ) (starts durations : List ℚ) (max_gap : ℚ)
    (hpos : 0 < nclips) :
    (group_sequences nclips starts durations max_gap).flatten = List.range nclips ∧
    (∀ s ∈ group_sequences nclips starts durations max_gap, s ≠ []) ∧
    (∀ s ∈ group_sequences nclips starts durations max_gap,
      s.Chain' (inRun starts durations max_gap)) ∧
    (group_sequences nclips starts durations max_gap).Chain'
      (runBoundary starts durations max_gap) := by
  have h := gs_invariant starts durations max_gap (nclips - 1)
  obtain ⟨_, hflat, hne, hchain, hbound⟩ := h
  rw [Nat.sub_add_cancel hpos] at hflat
  exact ⟨hflat, hne, hchain, hbound⟩

/-- C1: for every non-empty list of clips sorted chronologically by start
time, with the given probed durations and a maximum gap, `group_sequences`
returns a partition of the clip indices into runs: the runs flatten to
exactly `0, …, nclips-1` (every clip belongs to exactly one run, and runs
are contiguous, hence chronological), every run is nonempty, within a run
any two consecutive clips `i-1, i` satisfy
`starts[i] - (starts[i-1] + durations[i-1]) ≤ max_gap` (a gap of exactly
`max_gap` merges), and at every run boundary that gap exceeds `max_gap`. -/
theorem C1_group_sequences_partition (nclips : ℕ) (starts durations : List ℚ)
    (max_gap : ℚ) (hpos : 0 < nclips) (hlen : starts.length = nclips)
    (hdur : durations.length = nclips) (hsorted : starts.Sorted (· ≤ ·)) :
    (group_sequences nclips starts durations max_gap).flatten = List.range nclips ∧
    (∀ s ∈ group_sequences nclips starts durations max_gap, s ≠ []) ∧
    (∀ s ∈ group_sequences nclips starts durations max_gap,
      s.Chain' (inRun starts durations max_gap)) ∧
    (group_sequences nclips starts durations max_gap).Chain'
      (runBoundary starts durations max_gap) :=
  group_sequences_spec nclips starts durations max_gap hpos

/-! ## Filesystem model and external collaborators -/

/-- A day directory's contents: an association list from file name to an
abstract content tag. The tag only serves to observe overwrites. -/
abbrev FS := List (String × ℕ)

/-- Content of the file `name`, if present. -/
def readFile (fs : FS) (name : String) : Option ℕ :=
  List.lookup name fs

/-- `Path.unlink` (with `FileNotFoundError` swallowed, stitch.py lines
150-157): remove the file if present, do nothing otherwise. -/
def unlink (name : String) (fs : FS) : FS :=
  fs.filter (fun e => e.1 != name)

/-- Create or overwrite a file (the effect of a successful
`ffmpeg ... -y <path>`). -/
def writeFile (name : String) (content : ℕ) (fs : FS) : FS :=
  (name, content) :: unlink name fs

/-- `Path.replace` (stitch.py line 160): rename `src` onto `dst`,
silently overwriting `dst`; raises (`none`) if `src` does not exist. -/
def replaceFile (src dst : String) (fs : FS) : Option FS :=
  match readFile fs src with
  | some c => some ((dst, c) :: unlink dst (unlink src fs))
  | none => none

/-- Stream signature returned by `probe_stream_info` (stitch.py lines
81-95): the three `dict.get` fields, `none` when ffprobe omitted a key. -/
structure StreamInfo where
  codec_name : Option String
  pix_fmt : Option String
  color_transfer : Option String
deriving DecidableEq, Repr

/-- Oracles for the external collaborators: `ffprobe` duration and stream
info per file name, and `ffmpeg` concat outcome/output per source list. -/
structure Probe where
  duration : String → ℚ
  streamInfo : String → StreamInfo
  concatOk : List String → Bool
  concatContent : List String → ℕ

/-- `run_concat_and_cleanup` (stitch.py lines 131-162): concatenate
`seq_paths` into `stitched_<start_time>.mp4`, delete the sources, rename
the temp file to `<start_time>.mp4`. The concat list file written by
`make_concat_file` lives in the system temp directory, outside the day
directory modelled here. A failing `subprocess.run(..., check=True)` or a
failing `Path.replace` raises: modelled as `Except.error` carrying the
filesystem at the moment of the raise. -/
def run_concat_and_cleanup (pr : Probe) (seq_paths : List String)
    (start_time : String) (fs : FS) : Except FS FS :=
  let temp_name := "stitched_" ++ start_time ++ ".mp4"
  let final_name := start_time ++ ".mp4"
  if pr.concatOk seq_paths then
    let fs1 := writeFile temp_name (pr.concatContent seq_paths) fs
    let fs2 := seq_paths.foldl (fun acc p => unlink p acc) fs1
    match replaceFile temp_name final_name fs2 with
    | some fs3 => Except.ok fs3
    | none => Except.error fs2
  else Except.error fs

/-- Looking up the just-unlinked name gives nothing. -/
lemma readFile_unlink_self (fs : FS) (q : String) : readFile (unlink q fs) q = none := by
  induction fs with
  | nil => rfl
  | cons e fs ih =>
    unfold unlink readFile at *
    by_cases h : e.1 = q
    · simp [h, ih]
    · simp only [List.filter_cons]
      have : (e.1 != q) = true := by simp [h]
      rw [this]
      simp only [List.lookup]
      have : (q == e.1) = false := by simp [Ne.symm h]
      rw [this]
      exact ih

/-- Unlinking a different name does not change a lookup. -/
lemma readFile_unlink_ne (fs : FS) (p q : String) (h : q ≠ p) :
    readFile (unlink p fs) q = readFile fs q := by
  induction fs with
  | nil => rfl
  | cons e fs ih =>
    unfold unlink readFile at *
    by_cases he : e.1 = p
    · have : (e.1 != p) = false := by simp [he]
      simp only [List.filter_cons, this]
      have : (q == e.1) = false := by simp [he, h]
      simp only [List.lookup, this]
      exact ih
    · have : (e.1 != p) = true := by simp [he]
      simp only [List.filter_cons, this]
      simp only [List.lookup]
      by_cases hq : q = e.1
      · simp [hq]
      · have : (q == e.1) = false := by simp [hq]
        simp only [this]
        exact ih

/-- Effect of the source-deletion loop (stitch.py lines 150-157) on a
lookup: names in the loop are gone, others are untouched. -/
lemma readFile_foldl_unlink (l : List String) (fs : FS) (q : String) :
    readFile (l.foldl (fun acc p => unlink p acc) fs) q =
      if q ∈ l then none else readFile fs q := by
  induction l generalizing fs with
  | nil => simp
  | cons p l ih =>
    simp only [List.foldl_cons]
    rw [ih]
    by_cases hq : q ∈ l
    · simp [hq]
    · by_cases hp : q = p
      · subst hp
        simp [hq, readFile_unlink_self]
      · simp [hq, hp, readFile_unlink_ne fs p q hp]

/-- No entry named `q` survives `unlink q`. -/
lemma countP_unlink (fs : FS) (q : String) :
    (unlink q fs).countP (fun e => e.1 == q) = 0 := by
  induction fs with
  | nil => rfl
  | cons e fs ih =>
    unfold unlink at *
    simp only [List.filter_cons]
    by_cases h : e.1 = q
    · simp only [h, bne_self_eq_false]
      exact ih
    · have h1 : (e.1 != q) = true := by simp [h]
      have h2 : (e.1 == q) = false := by simp [h]
      simp [h1, h2, List.countP_cons, ih]

/-- The prospective temp name and final name always differ (they differ
in length by the 9 characters of the prelude `stitched_`). -/
lemma temp_ne_final (start_time : String) :
    ("stitched_" ++ start_time ++ ".mp4") ≠ (start_time ++ ".mp4") := by
  intro h
  have hlen := congrArg String.length h
  have h9 : ("stitched_" : String).length = 9 := rfl
  simp only [String.length_append, h9] at hlen
  omega

/-- Looking up the name just written finds its content. -/
lemma readFile_cons_self (fs : FS) (n : String) (c : ℕ) :
    readFile ((n, c) :: fs) n = some c := by
  simp [readFile, List.lookup]

/-- A cons for a different name does not change a lookup. -/
lemma readFile_cons_ne (fs : FS) (n q : String) (c : ℕ) (h : q ≠ n) :
    readFile ((n, c) :: fs) q = readFile fs q := by
  have hb : (q == n) = false := by simp [h]
  simp [readFile, List.lookup, hb]

/-- C5 (amended): on a successful concat of a run whose temp and final
output names do not collide with a source name, every source file of the
run is removed, exactly one output file named `<start_time>.mp4` (the
name derived from the run's first clip's start time; NOT of the 6-digit
organized form) exists and holds the concatenated content, the temporary
`stitched_<start_time>.mp4` artifact is gone from the day directory, and
every unrelated file is untouched. -/
theorem C5_successful_merge_cleanup (pr : Probe) (seq_paths : List String)
    (start_time : String) (fs : FS)
    (hok : pr.concatOk seq_paths = true)
    (htemp : ("stitched_" ++ start_time ++ ".mp4") ∉ seq_paths)
    (hfin : (start_time ++ ".mp4") ∉ seq_paths) :
    ∃ fs3,
      run_concat_and_cleanup pr seq_paths start_time fs = Except.ok fs3 ∧
      (∀ p ∈ seq_paths, readFile fs3 p = none) ∧
      readFile fs3 (start_time ++ ".mp4") = some (pr.concatContent seq_paths) ∧
      fs3.countP (fun e => e.1 == start_time ++ ".mp4") = 1 ∧
      readFile fs3 ("stitched_" ++ start_time ++ ".mp4") = none ∧
      (∀ q, q ∉ seq_paths → q ≠ start_time ++ ".mp4" →
        q ≠ "stitched_" ++ start_time ++ ".mp4" → readFile fs3 q = readFile fs q) := by
  unfold run_concat_and_cleanup
  rw [hok]
  simp only [if_true]
  set temp_name := "stitched_" ++ start_time ++ ".mp4" with htn
  set final_name := start_time ++ ".mp4" with hfn
  set c := pr.concatContent seq_paths with hc
  set fs2 := seq_paths.foldl (fun acc p => unlink p acc)
    (writeFile temp_name c fs) with hfs2
  have htf : temp_name ≠ final_name := temp_ne_final start_time
  have hlook2 : readFile fs2 temp_name = some c := by
    rw [hfs2, readFile_foldl_unlink]
    simp only [if_neg htemp]
    exact readFile_cons_self _ _ _
  have hrepl : replaceFile temp_name final_name fs2 =
      some ((final_name, c) :: unlink final_name (unlink temp_name fs2)) := by
    unfold replaceFile
    rw [hlook2]
  rw [hrepl]
  refine ⟨_, rfl, ?_, ?_, ?_, ?_, ?_⟩
  · intro p hp
    have hpf : p ≠ final_name := fun h => hfin (h ▸ hp)
    have hpt : p ≠ temp_name := fun h => htemp (h ▸ hp)
    rw [readFile_cons_ne _ _ _ _ hpf, readFile_unlink_ne _ _ _ hpf,
      readFile_unlink_ne _ _ _ hpt, hfs2, readFile_foldl_unlink]
    simp [hp]
  · exact readFile_cons_self _ _ _
  · rw [List.countP_cons]
    simp only [beq_self_eq_true, if_true]
    rw [countP_unlink]
  · rw [readFile_cons_ne _ _ _ _ htf, readFile_unlink_ne _ _ _ htf,
      readFile_unlink_self]
  · intro q hq hqf hqt
    rw [readFile_cons_ne _ _ _ _ hqf, readFile_unlink_ne _ _ _ hqf,
      readFile_unlink_ne _ _ _ hqt, hfs2, readFile_foldl_unlink]
    simp only [if_neg hq]
    unfold writeFile
    rw [readFile_cons_ne _ _ _ _ hqt, readFile_unlink_ne _ _ _ hqt]

/-- Probe oracle whose concatenation step always succeeds, producing
content tag 99. -/
def probeConcatWorks : Probe where
  duration := fun _ => 0
  streamInfo := fun _ => ⟨some "hevc", some "yuv420p10le", some "arib-std-b67"⟩
  concatOk := fun _ => true
  concatContent := fun _ => 99

/-- Witness for C5 at a concrete input: merging the two-clip run
`120000.mp4`, `120005.mp4` deletes both sources and leaves one output
`20240101_120000.mp4`. -/
theorem C5_successful_merge_cleanup_witness :
    ∃ fs3,
      run_concat_and_cleanup probeConcatWorks ["120000.mp4", "120005.mp4"]
        "20240101_120000" [("120000.mp4", 1), ("120005.mp4", 2)] = Except.ok fs3 ∧
      (∀ p ∈ ["120000.mp4", "120005.mp4"], readFile fs3 p = none) ∧
      readFile fs3 ("20240101_120000" ++ ".mp4") =
        some (probeConcatWorks.concatContent ["120000.mp4", "120005.mp4"]) ∧
      fs3.countP (fun e => e.1 == "20240101_120000" ++ ".mp4") = 1 ∧
      readFile fs3 ("stitched_" ++ "20240101_120000" ++ ".mp4") = none ∧
      (∀ q, q ∉ ["120000.mp4", "120005.mp4"] → q ≠ "20240101_120000" ++ ".mp4" →
        q ≠ "stitched_" ++ "20240101_120000" ++ ".mp4" →
        readFile fs3 q = readFile [("120000.mp4", 1), ("120005.mp4", 2)] q) :=
  C5_successful_merge_cleanup probeConcatWorks ["120000.mp4", "120005.mp4"]
    "20240101_120000" [("120000.mp4", 1), ("120005.mp4", 2)] rfl (by decide) (by decide)

/-- C2: if the concatenation collaborator fails (non-zero completion) on a
run submitted for merging, `run_concat_and_cleanup` raises before any
deletion: the resulting filesystem state is exactly the initial one — no
source file of the run is deleted and no output file is renamed. -/
theorem C2_concat_failure_aborts_before_deletion (pr : Probe)
    (seq_paths : List String) (start_time : String) (fs : FS)
    (hfail : pr.concatOk seq_paths = false) :
    run_concat_and_cleanup pr seq_paths start_time fs = Except.error fs := by
  unfold run_concat_and_cleanup
  rw [hfail]
  simp

/-- Probe oracle whose concatenation step always fails. -/
def probeConcatFails : Probe where
  duration := fun _ => 0
  streamInfo := fun _ => ⟨some "hevc", some "yuv420p10le", some "arib-std-b67"⟩
  concatOk := fun _ => false
  concatContent := fun _ => 0

/-- Witness for C2 at a concrete input: a failing concat on a two-clip run
leaves the day directory exactly as it was. -/
theorem C2_concat_failure_aborts_before_deletion_witness :
    run_concat_and_cleanup probeConcatFails ["120000.mp4", "120005.mp4"]
      "20240101_120000" [("120000.mp4", 1), ("120005.mp4", 2)] =
      Except.error [("120000.mp4", 1), ("120005.mp4", 2)] :=
  C2_concat_failure_aborts_before_deletion probeConcatFails
    ["120000.mp4", "120005.mp4"] "20240101_120000"
    [("120000.mp4", 1), ("120005.mp4", 2)] rfl

/-! ## String helpers: models of the Python `str`/`pathlib` operations -/

/-- Model of Python `str.split(sep)` for a one-character separator, over
the characters of a string: splits at every occurrence, keeping empty
segments. -/
def splitOnChar (sep : Char) : List Char → List (List Char)
  | [] => [[]]
  | c :: cs =>
    let r := splitOnChar sep cs
    if c = sep then [] :: r
    else
      match r with
      | [] => [[c]]
      | g :: gs => (c :: g) :: gs

/-- Model of `re.fullmatch(r"\d\x7b6\x7d", p)`: exactly six ASCII digits. -/
def isSixDigits (l : List Char) : Bool :=
  l.length == 6 && l.all Char.isDigit

/-- Index of the last `'.'` of the list, accumulator-style. -/
def lastDotIdxAux : List Char → ℕ → Option ℕ → Option ℕ
  | [], _, acc => acc
  | c :: cs, i, acc => lastDotIdxAux cs (i + 1) (if c = '.' then some i else acc)

/-- Index of the last `'.'` of the list, if any. -/
def lastDotIdx (cs : List Char) : Option ℕ :=
  lastDotIdxAux cs 0 none

/-- Model of `PurePath.stem`: the final component without its last
suffix; a dot in first or last position does not begin a suffix. -/
def stemChars (cs : List Char) : List Char :=
  match lastDotIdx cs with
  | some i => if 0 < i ∧ i < cs.length - 1 then cs.take i else cs
  | none => cs

/-- Model of Python `int(...)` on a string of ASCII digits. -/
def digitsToNat (l : List Char) : ℕ :=
  l.foldl (fun a c => 10 * a + (c.toNat - 48)) 0

/-- Decimal digits of `n`, most significant first, with the structural
fuel `n` itself (ample, since `n` has at most `n + 1` digits). Models
Python `str` of a nonnegative `int`. -/
def decDigitsAux : ℕ → ℕ → List Char → List Char
  | 0, n, acc => Nat.digitChar n :: acc
  | fuel + 1, n, acc =>
    if n < 10 then Nat.digitChar n :: acc
    else decDigitsAux fuel (n / 10) (Nat.digitChar (n % 10) :: acc)

/-- Decimal digit string of `n` (model of Python `str(int)`). -/
def decDigits (n : ℕ) : List Char :=
  decDigitsAux n n []

/-- Decimal representation of `n` as a string. -/
def decRepr (n : ℕ) : String :=
  (decDigits n).asString

/-- Model of Python code-point-wise lexicographic string comparison, as
used by `sorted(...)` on same-directory `Path`s. -/
def lexLe : List Char → List Char → Bool
  | [], _ => true
  | _ :: _, [] => false
  | a :: as, b :: bs => if a = b then lexLe as bs else decide (a < b)

/-- Lexicographic comparison on names. -/
def nameLe (a b : String) : Bool :=
  lexLe a.toList b.toList

/-- `zfill`-style two-digit field of `strftime` (`%m`, `%d`, `%H`, `%M`,
`%S`). -/
def pad2 (n : ℕ) : String :=
  if n < 10 then "0" ++ decRepr n else decRepr n

/-- Four-digit year field of `strftime` (`%Y`), zero-padded. -/
def pad4 (n : ℕ) : String :=
  if n < 10 then "000" ++ decRepr n
  else if n < 100 then "00" ++ decRepr n
  else if n < 1000 then "0" ++ decRepr n
  else decRepr n

/-- `starts[seq[0]].strftime("%Y%m%d_%H%M%S")` (stitch.py lines 214, 220)
for a clip of the day `y-mo-d` starting `sec` seconds into the day. -/
def fmtStart (y mo d sec : ℕ) : String :=
  pad4 y ++ pad2 mo ++ pad2 d ++ "_" ++ pad2 (sec / 3600) ++
    pad2 (sec % 3600 / 60) ++ pad2 (sec % 60)

/-! ## Stitcher discovery (stitch.py lines 169-198) -/

/-- A discovered clip: its file name and its start time in whole seconds
of the day (the `HHMMSS` token of the stem combined with the directory's
date). -/
structure Clip where
  name : String
  sec : ℕ
deriving DecidableEq, Repr

/-- Leap-year rule of the Gregorian calendar (as in Python `datetime`). -/
def isLeap (y : ℕ) : Bool :=
  (y % 4 == 0 && y % 100 != 0) || y % 400 == 0

/-- Number of days of month `m` of year `y`. -/
def daysInMonth (y m : ℕ) : ℕ :=
  if m = 2 then (if isLeap y then 29 else 28)
  else if m = 4 ∨ m = 6 ∨ m = 9 ∨ m = 11 then 30
  else 31

/-- Model of the `datetime(...)` constructor check (stitch.py lines
180-190): `ValueError` unless all fields are in range. -/
def validDateTime (y mo d hh mi ss : ℕ) : Bool :=
  decide (1 ≤ y) && decide (y ≤ 9999) && decide (1 ≤ mo) && decide (mo ≤ 12) &&
    decide (1 ≤ d) && decide (d ≤ daysInMonth y mo) && decide (hh ≤ 23) &&
    decide (mi ≤ 59) && decide (ss ≤ 59)

/-- Timestamp extraction for one candidate file (stitch.py lines
173-192): split the stem on `'_'`, take the first exactly-6-digit
segment, combine with the directory date, skip the file (`none`) if no
segment is found or the time is invalid. -/
def parseClip (y mo d : ℕ) (name : String) : Option Clip :=
  match (splitOnChar '_' (stemChars name.toList)).find? isSixDigits with
  | none => none
  | some tp =>
    if validDateTime y mo d (digitsToNat (tp.take 2))
        (digitsToNat ((tp.drop 2).take 2)) (digitsToNat (tp.drop 4)) then
      some ⟨name, digitsToNat (tp.take 2) * 3600 +
        digitsToNat ((tp.drop 2).take 2) * 60 + digitsToNat (tp.drop 4)⟩
    else none

/-- `sorted(day_dir.glob("*." + ext))` (stitch.py line 172) on a POSIX
filesystem: the direct children whose name ends with the literal,
case-sensitive `"." ++ ext`, in Python-sorted (code-point) order. -/
def globSorted (children : List String) (ext : String) : List String :=
  List.insertionSort (fun a b => nameLe a b = true)
    (children.filter (fun n => ("." ++ ext).toList.isSuffixOf n.toList))

/-- Candidate files of the discovery loop, in iteration order: the sorted
`*.mp4` matches followed by the sorted `*.mkv` matches (stitch.py line
171: `for ext in ("mp4", "mkv")`). -/
def discoveryCandidates (children : List String) : List String :=
  globSorted children "mp4" ++ globSorted children "mkv"

/-- The discovered clips of a day directory, in discovery order. -/
def discoverClips (y mo d : ℕ) (children : List String) : List Clip :=
  (discoveryCandidates children).filterMap (parseClip y mo d)

/-- Chronological re-sort (stitch.py lines 195-198): Python's stable
`sorted(range(len(clips)), key=...)` on start times, modelled by the
stable insertion sort on the clip records. -/
def sortByStart (clips : List Clip) : List Clip :=
  List.insertionSort (fun a b => a.sec ≤ b.sec) clips

/-- Starts list handed to `group_sequences` (seconds as rationals). -/
def startsOf (clips : List Clip) : List ℚ :=
  clips.map (fun c => (c.sec : ℚ))

/-- Durations list handed to `group_sequences`, probed per clip. -/
def durationsOf (pr : Probe) (clips : List Clip) : List ℚ :=
  clips.map (fun c => pr.duration c.name)

/-- The runs computed for a day's (already sorted) clips. -/
def seqsOf (pr : Probe) (max_gap : ℚ) (clips : List Clip) : List (List ℕ) :=
  group_sequences clips.length (startsOf clips) (durationsOf pr clips) max_gap

/-! ## Per-run processing and the day loop (stitch.py lines 200-227) -/

/-- State threaded through one `stitch_day_directory` call: the directory
contents, the printed diagnostics, and the count of stitched runs. -/
structure DayState where
  fs : FS
  log : List String
  stitched : ℕ
deriving DecidableEq, Repr

/-- Python prints `None` for a missing `dict.get` key. -/
def optStr : Option String → String
  | some s => s
  | none => "None"

/-- One diagnostic line of the mismatch report (stitch.py line 218). -/
def sigLine (name : String) (info : StreamInfo) : String :=
  "  " ++ name ++ " → codec=" ++ optStr info.codec_name ++ ", pix_fmt=" ++
    optStr info.pix_fmt ++ ", transfer=" ++ optStr info.color_transfer

/-- `mismatches` (stitch.py lines 209-212): the indices `i ≥ 1` whose
stream signature differs from the first clip's on any of the three
fields. -/
def mismatchesOf (infos : List StreamInfo) (first : StreamInfo) : List ℕ :=
  (List.range' 1 (infos.length - 1)).filter (fun i =>
    let info := infos.getD i ⟨none, none, none⟩
    info.codec_name != first.codec_name || info.pix_fmt != first.pix_fmt ||
      info.color_transfer != first.color_transfer)

/-- Placeholder clip for the (never taken in-range) `getD` default. -/
def defaultClip : Clip :=
  ⟨"", 0⟩

/-- `seq_paths = [clips[i] for i in seq]` (stitch.py line 205). -/
def seqPathsOf (clips : List Clip) (seq : List ℕ) : List String :=
  seq.map (fun i => (clips.getD i defaultClip).name)

/-- The probed stream signatures of a run (stitch.py line 207). -/
def runInfos (pr : Probe) (clips : List Clip) (seq : List ℕ) : List StreamInfo :=
  (seqPathsOf clips seq).map pr.streamInfo

/-- The `mismatches` list of a run (stitch.py lines 208-212). -/
def runMismatches (pr : Probe) (clips : List Clip) (seq : List ℕ) : List ℕ :=
  mismatchesOf (runInfos pr clips seq) ((runInfos pr clips seq).getD 0 ⟨none, none, none⟩)

/-- `starts[seq[0]].strftime("%Y%m%d_%H%M%S")` for a run. -/
def runStartTime (y mo d : ℕ) (clips : List Clip) (seq : List ℕ) : String :=
  fmtStart y mo d (clips.getD (seq.getD 0 0) defaultClip).sec

/-- The temp output path chosen for a run (stitch.py line 135). -/
def tempNameOf (y mo d : ℕ) (clips : List Clip) (seq : List ℕ) : String :=
  "stitched_" ++ runStartTime y mo d clips seq ++ ".mp4"

/-- The final output path chosen for a run (stitch.py line 136). -/
def finalNameOf (y mo d : ℕ) (clips : List Clip) (seq : List ℕ) : String :=
  runStartTime y mo d clips seq ++ ".mp4"

/-- Diagnostic lines printed for a mismatched run (stitch.py lines
213-218): a header, then one signature line for the first clip and for
each MISMATCHED clip (clips that agree with the first are not listed). -/
def skipReport (pr : Probe) (y mo d : ℕ) (clips : List Clip) (seq : List ℕ) :
    List String :=
  ("⚠️ Skipping stitching starting " ++ runStartTime y mo d clips seq ++
    ": codec/pix_fmt/color_transfer mismatch:") ::
    ([0] ++ runMismatches pr clips seq).map (fun idx =>
      sigLine ((seqPathsOf clips seq).getD idx "")
        ((runInfos pr clips seq).getD idx ⟨none, none, none⟩))

/-- Progress lines printed before invoking the concat (stitch.py lines
221-224). -/
def mergeReport (y mo d : ℕ) (clips : List Clip) (seq : List ℕ) : List String :=
  ("Stitching " ++ decRepr (seqPathsOf clips seq).length ++
    " clips starting at " ++ runStartTime y mo d clips seq) :: "Files to stitch:" ::
    (seqPathsOf clips seq).map (fun n => "  " ++ n)

/-- Body of the `for seq in seqs` loop (stitch.py lines 202-226): skip
runs shorter than 2; skip (with a diagnostic) runs with mismatched
stream signatures; otherwise concatenate and clean up, propagating a
concat failure as `Except.error`. -/
def processRun (pr : Probe) (y mo d : ℕ) (clips : List Clip) (st : DayState)
    (seq : List ℕ) : Except DayState DayState :=
  if seq.length < 2 then Except.ok st
  else if runMismatches pr clips seq = [] then
    match run_concat_and_cleanup pr (seqPathsOf clips seq)
        (runStartTime y mo d clips seq) st.fs with
    | Except.ok fs3 =>
      Except.ok ⟨fs3, st.log ++ mergeReport y mo d clips seq, st.stitched + 1⟩
    | Except.error fsE =>
      Except.error ⟨fsE, st.log ++ mergeReport y mo d clips seq, st.stitched⟩
  else
    Except.ok ⟨st.fs, st.log ++ skipReport pr y mo d clips seq, st.stitched⟩

/-- The `for seq in seqs` loop itself: process runs in order, stopping at
the first raised error (which propagates out of the day). -/
def processRuns (pr : Probe) (y mo d : ℕ) (clips : List Clip) :
    DayState → List (List ℕ) → Except DayState DayState
  | st, [] => Except.ok st
  | st, seq :: rest =>
    match processRun pr y mo d clips st seq with
    | Except.ok st2 => processRuns pr y mo d clips st2 rest
    | Except.error st2 => Except.error st2

/-- `stitch_day_directory` (stitch.py lines 165-227) for the day
directory `y-mo-d` with contents `fs`: discover and sort clips, group
them, process every run. `Except.error` is an uncaught exception. -/
def stitch_day_directory (pr : Probe) (y mo d : ℕ) (fs : FS) (max_gap : ℚ) :
    Except DayState DayState :=
  processRuns pr y mo d (sortByStart (discoverClips y mo d (fs.map Prod.fst)))
    ⟨fs, [], 0⟩ (seqsOf pr max_gap (sortByStart (discoverClips y mo d (fs.map Prod.fst))))

/-- Decidable equality of `Except` results, for evaluating concrete
scenarios. -/
instance {α β : Type} [DecidableEq α] [DecidableEq β] (a b : Except α β) :
    Decidable (a = b) :=
  match a, b with
  | Except.ok x, Except.ok y => decidable_of_iff (x = y) (by simp)
  | Except.error x, Except.error y => decidable_of_iff (x = y) (by simp)
  | Except.ok _, Except.error _ => Decidable.isFalse (by simp)
  | Except.error _, Except.ok _ => Decidable.isFalse (by simp)

/-- One day directory of the scan tree: its date (already
digit-validated by `main`) and contents. -/
structure DayDir where
  y : ℕ
  mo : ℕ
  d : ℕ
  fs : FS
deriving DecidableEq, Repr

/-- Outcome of the stitching pass of `main` (stitch.py lines 242-252):
either every day was processed, or an uncaught exception aborted the
pass, leaving the failing day's state and the unprocessed days. -/
inductive PassResult where
  | done : List DayState → ℕ → PassResult
  | aborted : List DayState → DayState → List DayDir → ℕ → PassResult
deriving DecidableEq, Repr

/-- The day loop of `main`: process day directories in order, adding up
the per-day stitched counts; an exception terminates the whole loop. -/
def stitch_days (pr : Probe) (max_gap : ℚ) :
    List DayDir → List DayState → ℕ → PassResult
  | [], acc, total => PassResult.done acc.reverse total
  | day :: rest, acc, total =>
    match stitch_day_directory pr day.y day.mo day.d day.fs max_gap with
    | Except.ok st => stitch_days pr max_gap rest (st :: acc) (total + st.stitched)
    | Except.error st => PassResult.aborted acc.reverse st rest total

/-- The whole stitching pass over the discovered day directories. -/
def stitch_all (pr : Probe) (max_gap : ℚ) (days : List DayDir) : PassResult :=
  stitch_days pr max_gap days [] 0

/-- Day directories never reached by the pass. -/
def PassResult.unprocessedDays : PassResult → List DayDir
  | PassResult.done _ _ => []
  | PassResult.aborted _ _ rest _ => rest

/-- Did the pass abort with an uncaught exception? -/
def PassResult.isAborted : PassResult → Bool
  | PassResult.done _ _ => false
  | PassResult.aborted _ _ _ _ => true

/-- Total number of runs merged by the pass. -/
def PassResult.totalStitched : PassResult → ℕ
  | PassResult.done _ total => total
  | PassResult.aborted _ _ _ total => total

/-! ## Frame lemmas: which files one run's processing can touch -/

/-- The filesystem reached by `run_concat_and_cleanup`, whether it
returned or raised. -/
def exceptFS : Except FS FS → FS
  | Except.ok f => f
  | Except.error f => f

/-- The day state reached by run processing, whether it returned or
raised. -/
def exceptState : Except DayState DayState → DayState
  | Except.ok st => st
  | Except.error st => st

/-- `run_concat_and_cleanup` touches only the run's sources, its temp
name and its final name: any other file keeps its content, on success and
on failure alike. -/
lemma run_concat_frame (pr : Probe) (sp : List String) (s : String) (fs : FS)
    (q : String) (hq : q ∉ sp) (ht : q ≠ "stitched_" ++ s ++ ".mp4")
    (hf : q ≠ s ++ ".mp4") :
    readFile (exceptFS (run_concat_and_cleanup pr sp s fs)) q = readFile fs q := by
  unfold run_concat_and_cleanup
  by_cases hok : pr.concatOk sp
  · simp only [hok, if_true]
    have hbase : readFile (sp.foldl (fun acc p => unlink p acc)
        (writeFile ("stitched_" ++ s ++ ".mp4") (pr.concatContent sp) fs)) q =
        readFile fs q := by
      rw [readFile_foldl_unlink]
      simp only [if_neg hq]
      unfold writeFile
      rw [readFile_cons_ne _ _ _ _ ht, readFile_unlink_ne _ _ _ ht]
    unfold replaceFile
    cases hl : readFile (sp.foldl (fun acc p => unlink p acc)
        (writeFile ("stitched_" ++ s ++ ".mp4") (pr.concatContent sp) fs))
        ("stitched_" ++ s ++ ".mp4") with
    | none => simpa [exceptFS, hl] using hbase
    | some c =>
      simp only [hl, exceptFS]
      rw [readFile_cons_ne _ _ _ _ hf, readFile_unlink_ne _ _ _ hf,
        readFile_unlink_ne _ _ _ ht]
      exact hbase
  · simp only [hok, if_false]
    rfl

/-- A run's processing touches only its own sources, temp name and final
name, and only when it actually attempts a merge; length-1 runs and
mismatched runs touch nothing at all. -/
lemma processRun_frame (pr : Probe) (y mo d : ℕ) (clips : List Clip)
    (st : DayState) (seq : List ℕ) (q : String)
    (h : seq.length < 2 ∨ runMismatches pr clips seq ≠ [] ∨
      (q ∉ seqPathsOf clips seq ∧ q ≠ tempNameOf y mo d clips seq ∧
        q ≠ finalNameOf y mo d clips seq)) :
    readFile (exceptState (processRun pr y mo d clips st seq)).fs q =
      readFile st.fs q := by
  unfold processRun
  by_cases hlen : seq.length < 2
  · simp [hlen, exceptState]
  · simp only [hlen, if_false]
    by_cases hm : runMismatches pr clips seq = []
    · have hnames : q ∉ seqPathsOf clips seq ∧ q ≠ tempNameOf y mo d clips seq ∧
          q ≠ finalNameOf y mo d clips seq := by
        rcases h with h | h | h
        · exact absurd h hlen
        · exact absurd hm h
        · exact h
      obtain ⟨hq, ht, hf⟩ := hnames
      simp only [hm, if_true]
      have hframe := run_concat_frame pr (seqPathsOf clips seq)
        (runStartTime y mo d clips seq) st.fs q hq ht hf
      cases hr : run_concat_and_cleanup pr (seqPathsOf clips seq)
          (runStartTime y mo d clips seq) st.fs with
      | ok fs3 => rw [hr] at hframe; simpa [exceptState, exceptFS] using hframe
      | error fsE => rw [hr] at hframe; simpa [exceptState, exceptFS] using hframe
    · simp [hm, exceptState]

/-- Processing a list of runs preserves any file that every single run
leaves alone. -/
lemma processRuns_frame (pr : Probe) (y mo d : ℕ) (clips : List Clip)
    (q : String) : ∀ (seqs : List (List ℕ)) (st : DayState),
    (∀ seq ∈ seqs, seq.length < 2 ∨ runMismatches pr clips seq ≠ [] ∨
      (q ∉ seqPathsOf clips seq ∧ q ≠ tempNameOf y mo d clips seq ∧
        q ≠ finalNameOf y mo d clips seq)) →
    readFile (exceptState (processRuns pr y mo d clips st seqs)).fs q =
      readFile st.fs q := by
  intro seqs
  induction seqs with
  | nil => intro st _; rfl
  | cons seq rest ih =>
    intro st hall
    have hseq := hall seq (by simp)
    have hrest : ∀ s ∈ rest, s.length < 2 ∨ runMismatches pr clips s ≠ [] ∨
        (q ∉ seqPathsOf clips s ∧ q ≠ tempNameOf y mo d clips s ∧
          q ≠ finalNameOf y mo d clips s) :=
      fun s hs => hall s (by simp [hs])
    have hstep := processRun_frame pr y mo d clips st seq q hseq
    unfold processRuns
    cases hr : processRun pr y mo d clips st seq with
    | ok st2 =>
      rw [hr] at hstep
      simp only [exceptState] at hstep
      rw [ih st2 hrest, hstep]
    | error st2 =>
      rw [hr] at hstep
      simpa [exceptState] using hstep

/-! ## C3: a concat failure aborts the whole pass -/

/-- Scenario probe for C3: the concat of the first run of day one fails
(`ffmpeg` non-zero); any other concat would succeed. -/
def prC3 : Probe where
  duration := fun n => if n = "100000.mp4" then 20 else if n = "100025.mp4" then 5
    else if n = "110000.mp4" then 20 else if n = "110030.mp4" then 7 else 5
  streamInfo := fun _ => ⟨some "hevc", some "yuv420p", some "bt709"⟩
  concatOk := fun seq => seq != ["100000.mp4", "100025.mp4"]
  concatContent := fun _ => 99

/-- Day one of the C3 scenario: two mergeable runs
(`100000`+`100025`, gap 5; `110000`+`110030`, gap 10). -/
def fsC3A : FS :=
  [("100000.mp4", 1), ("100025.mp4", 2), ("110000.mp4", 3), ("110030.mp4", 4)]

/-- Day one as a scan-tree entry. -/
def dayC3A : DayDir :=
  ⟨2024, 1, 1, fsC3A⟩

/-- Day two of the C3 scenario: one mergeable run whose concat would
succeed. -/
def dayC3B : DayDir :=
  ⟨2024, 1, 2, [("090000.mp4", 5), ("090010.mp4", 6)]⟩

/-- The day state at the moment the uncaught concat error leaves
`stitch_day_directory` on day one: sources intact, nothing stitched. -/
def stC3F : DayState :=
  ⟨fsC3A, ["Stitching 2 clips starting at 20240101_100000", "Files to stitch:",
    "  100000.mp4", "  100025.mp4"], 0⟩

/-- Evaluation of day one of the C3 scenario: the concat failure
propagates out of `stitch_day_directory` as an exception, after the first
run's progress lines, with the filesystem unchanged. -/
lemma stitch_day_C3A_eval :
    stitch_day_directory prC3 2024 1 1 fsC3A 30 = Except.error stC3F := by
  have hclips : sortByStart (discoverClips 2024 1 1 (fsC3A.map Prod.fst)) =
      [⟨"100000.mp4", 36000⟩, ⟨"100025.mp4", 36025⟩, ⟨"110000.mp4", 39600⟩,
        ⟨"110030.mp4", 39630⟩] := by decide
  have hs : startsOf [⟨"100000.mp4", 36000⟩, ⟨"100025.mp4", 36025⟩,
      ⟨"110000.mp4", 39600⟩, ⟨"110030.mp4", 39630⟩] =
      [36000, 36025, 39600, 39630] := by decide
  have hd : durationsOf prC3 [⟨"100000.mp4", 36000⟩, ⟨"100025.mp4", 36025⟩,
      ⟨"110000.mp4", 39600⟩, ⟨"110030.mp4", 39630⟩] = [20, 5, 20, 7] := by decide
  have hseqs : seqsOf prC3 30 [⟨"100000.mp4", 36000⟩, ⟨"100025.mp4", 36025⟩,
      ⟨"110000.mp4", 39600⟩, ⟨"110030.mp4", 39630⟩] = [[0, 1], [2, 3]] := by
    unfold seqsOf
    rw [hs, hd]
    norm_num [group_sequences, gsStep, gapAt, List.range']
  unfold stitch_day_directory
  rw [hclips, hseqs]
  decide

/-- C3 counterexample: with the failing concat on day one's first run,
the whole pass aborts — day one's second (perfectly mergeable) run is
never attempted, day two is never visited, and nothing is stitched. This
falsifies the claim that processing of subsequent runs and days
continues after a concatenation failure. -/
theorem C3_counterexample :
    stitch_all prC3 30 [dayC3A, dayC3B] = PassResult.aborted [] stC3F [dayC3B] 0 ∧
    (stitch_all prC3 30 [dayC3A, dayC3B]).isAborted = true ∧
    (stitch_all prC3 30 [dayC3A, dayC3B]).unprocessedDays = [dayC3B] ∧
    (stitch_all prC3 30 [dayC3A, dayC3B]).totalStitched = 0 := by
  have hmain : stitch_all prC3 30 [dayC3A, dayC3B] =
      PassResult.aborted [] stC3F [dayC3B] 0 := by
    unfold stitch_all stitch_days
    have hday : stitch_day_directory prC3 dayC3A.y dayC3A.mo dayC3A.d dayC3A.fs 30 =
        Except.error stC3F := stitch_day_C3A_eval
    rw [hday]
    rfl
  exact ⟨hmain, by rw [hmain]; rfl, by rw [hmain]; rfl, by rw [hmain]; rfl⟩

/-- The day loop aborts at the first day whose stitching raises,
returning the unprocessed remainder untouched. -/
lemma stitch_days_abort (pr : Probe) (g : ℚ) (day : DayDir) (rest : List DayDir)
    (stF : DayState)
    (hfail : stitch_day_directory pr day.y day.mo day.d day.fs g = Except.error stF) :
    ∀ (pre : List DayDir) (acc : List DayState) (tot : ℕ),
    (∀ dd ∈ pre, ∃ st, stitch_day_directory pr dd.y dd.mo dd.d dd.fs g = Except.ok st) →
    ∃ finished total, stitch_days pr g (pre ++ day :: rest) acc tot =
      PassResult.aborted finished stF rest total := by
  intro pre
  induction pre with
  | nil =>
    intro acc tot _
    simp only [List.nil_append]
    unfold stitch_days
    rw [hfail]
    exact ⟨_, _, rfl⟩
  | cons dd pre ih =>
    intro acc tot hok
    obtain ⟨st, hst⟩ := hok dd (by simp)
    simp only [List.cons_append]
    unfold stitch_days
    rw [hst]
    exact ih _ _ (fun x hx => hok x (by simp [hx]))

/-- C3 (amended): a concatenation failure is NOT recoverable at the run
level: the raised error propagates uncaught through
`stitch_day_directory` and `main`'s day loop, so the stitching pass
terminates — the failing run's sources are preserved and nothing renamed
(see C2), but the remaining runs of that day and all later day
directories are left unprocessed. -/
theorem C3_concat_failure_terminates_pass (pr : Probe) (g : ℚ)
    (pre : List DayDir) (day : DayDir) (rest : List DayDir) (stF : DayState)
    (hok : ∀ dd ∈ pre, ∃ st,
      stitch_day_directory pr dd.y dd.mo dd.d dd.fs g = Except.ok st)
    (hfail : stitch_day_directory pr day.y day.mo day.d day.fs g = Except.error stF) :
    ∃ finished total, stitch_all pr g (pre ++ day :: rest) =
      PassResult.aborted finished stF rest total :=
  stitch_days_abort pr g day rest stF hfail pre [] 0 hok

/-- Witness for C3 at the concrete scenario: the pass over the two days
aborts with day two unprocessed. -/
theorem C3_concat_failure_terminates_pass_witness :
    ∃ finished total, stitch_all prC3 30 ([] ++ dayC3A :: [dayC3B]) =
      PassResult.aborted finished stC3F [dayC3B] total :=
  C3_concat_failure_terminates_pass prC3 30 [] dayC3A [dayC3B] stC3F
    (by intro dd h; exact absurd h (List.not_mem_nil dd)) stitch_day_C3A_eval

/-! ## C4: mismatched runs are skipped (with a partial report) -/

/-- C4 (amended): a run of length at least 2 with a stream-signature
mismatch never triggers a merge: its processing leaves the filesystem
and the stitched count unchanged, appends the diagnostic report (the
first clip's signature and each MISMATCHING clip's signature — clips
agreeing with the first are not listed), and processing moves on to the
next run. -/
theorem C4_mismatched_run_left_untouched (pr : Probe) (y mo d : ℕ)
    (clips : List Clip) (st : DayState) (seq : List ℕ) (rest : List (List ℕ))
    (hlen : ¬ seq.length < 2) (hmism : runMismatches pr clips seq ≠ []) :
    processRun pr y mo d clips st seq =
      Except.ok ⟨st.fs, st.log ++ skipReport pr y mo d clips seq, st.stitched⟩ ∧
    processRuns pr y mo d clips st (seq :: rest) =
      processRuns pr y mo d clips
        ⟨st.fs, st.log ++ skipReport pr y mo d clips seq, st.stitched⟩ rest := by
  have h1 : processRun pr y mo d clips st seq =
      Except.ok ⟨st.fs, st.log ++ skipReport pr y mo d clips seq, st.stitched⟩ := by
    unfold processRun
    rw [if_neg hlen, if_neg hmism]
  refine ⟨h1, ?_⟩
  conv_lhs => rw [processRuns]
  rw [h1]

/-- Scenario probe for C4: the third clip's pixel format differs. -/
def prC4 : Probe where
  duration := fun _ => 5
  streamInfo := fun n => if n = "120020.mp4" then
      ⟨some "hevc", some "yuv420p10le", some "bt709"⟩
    else ⟨some "hevc", some "yuv420p", some "bt709"⟩
  concatOk := fun _ => true
  concatContent := fun _ => 99

/-- Day contents of the C4 scenario: one run of three clips (gaps 5 s). -/
def fsC4 : FS :=
  [("120000.mp4", 1), ("120010.mp4", 2), ("120020.mp4", 3)]

/-- The sorted clips of the C4 scenario. -/
def clipsC4 : List Clip :=
  [⟨"120000.mp4", 43200⟩, ⟨"120010.mp4", 43210⟩, ⟨"120020.mp4", 43220⟩]

/-- Evaluation of the C4 scenario day: the mismatched run is skipped
with a report listing only the first and the third clip. -/
lemma stitch_day_C4_eval :
    stitch_day_directory prC4 2024 1 1 fsC4 30 = Except.ok ⟨fsC4,
      ["⚠️ Skipping stitching starting 20240101_120000: codec/pix_fmt/color_transfer mismatch:",
       "  120000.mp4 → codec=hevc, pix_fmt=yuv420p, transfer=bt709",
       "  120020.mp4 → codec=hevc, pix_fmt=yuv420p10le, transfer=bt709"], 0⟩ := by
  have hclips : sortByStart (discoverClips 2024 1 1 (fsC4.map Prod.fst)) = clipsC4 := by
    decide
  have hs : startsOf clipsC4 = [43200, 43210, 43220] := by decide
  have hd : durationsOf prC4 clipsC4 = [5, 5, 5] := by decide
  have hseqs : seqsOf prC4 30 clipsC4 = [[0, 1, 2]] := by
    unfold seqsOf
    rw [hs, hd]
    norm_num [group_sequences, gsStep, gapAt, List.range', clipsC4]
  unfold stitch_day_directory
  rw [hclips, hseqs]
  decide

/-- C4 counterexample: in the three-clip mismatched run, the middle
clip agrees with the first, so its signature is NOT reported — the run
is skipped and untouched, but the claim's "each clip's signature is
reported for diagnosis" is false. -/
theorem C4_counterexample :
    stitch_day_directory prC4 2024 1 1 fsC4 30 = Except.ok ⟨fsC4,
      ["⚠️ Skipping stitching starting 20240101_120000: codec/pix_fmt/color_transfer mismatch:",
       "  120000.mp4 → codec=hevc, pix_fmt=yuv420p, transfer=bt709",
       "  120020.mp4 → codec=hevc, pix_fmt=yuv420p10le, transfer=bt709"], 0⟩ ∧
    sigLine "120010.mp4" (prC4.streamInfo "120010.mp4") ∉
      (exceptState (stitch_day_directory prC4 2024 1 1 fsC4 30)).log := by
  refine ⟨stitch_day_C4_eval, ?_⟩
  rw [stitch_day_C4_eval]
  decide

/-- Witness for C4 at the concrete scenario: the mismatched three-clip
run is skipped, appending exactly the report of the first and third
clip. -/
theorem C4_mismatched_run_left_untouched_witness :
    processRun prC4 2024 1 1 clipsC4 ⟨fsC4, [], 0⟩ [0, 1, 2] =
      Except.ok ⟨fsC4, [] ++ skipReport prC4 2024 1 1 clipsC4 [0, 1, 2], 0⟩ ∧
    processRuns prC4 2024 1 1 clipsC4 ⟨fsC4, [], 0⟩ [[0, 1, 2]] =
      processRuns prC4 2024 1 1 clipsC4
        ⟨fsC4, [] ++ skipReport prC4 2024 1 1 clipsC4 [0, 1, 2], 0⟩ [] :=
  C4_mismatched_run_left_untouched prC4 2024 1 1 clipsC4 ⟨fsC4, [], 0⟩ [0, 1, 2] []
    (by decide) (by decide)

/-! ## C10: a day with no parseable clip is a no-op -/

/-- C10: for a day directory in which no candidate file yields a
parseable `HHMMSS` timestamp, `stitch_day_directory` performs no
deletion and no merge, prints nothing, and returns 0 — even though the
grouping helper applied to the empty clip list returns `[[0]]`, a
spurious run holding the out-of-range index 0, which the length-2 guard
renders harmless. -/
theorem C10_unparseable_day_is_noop (pr : Probe) (y mo d : ℕ) (fs : FS) (g : ℚ)
    (hnoparse : ∀ nm ∈ discoveryCandidates (fs.map Prod.fst),
      parseClip y mo d nm = none) :
    stitch_day_directory pr y mo d fs g = Except.ok ⟨fs, [], 0⟩ ∧
    group_sequences 0 [] [] g = [[0]] := by
  have hdisc : discoverClips y mo d (fs.map Prod.fst) = [] := by
    unfold discoverClips
    exact List.filterMap_eq_nil_iff.mpr hnoparse
  constructor
  · unfold stitch_day_directory
    rw [hdisc]
    rfl
  · rfl

/-- Witness for C10 at a concrete input: a day holding a text file and an
`abc.mp4` without any 6-digit stem segment is left untouched. -/
theorem C10_unparseable_day_is_noop_witness :
    stitch_day_directory probeConcatWorks 2024 1 1
      [("notes.txt", 1), ("abc.mp4", 2)] 30 =
      Except.ok ⟨[("notes.txt", 1), ("abc.mp4", 2)], [], 0⟩ ∧
    group_sequences 0 [] [] 30 = [[0]] :=
  C10_unparseable_day_is_noop probeConcatWorks 2024 1 1
    [("notes.txt", 1), ("abc.mp4", 2)] 30 (by decide)

/-! ## C5: output naming after a successful merge -/

/-- Modelled from the spec: the organized filename convention
`<6-digit-time>[_<counter>].<mp4|mkv>` of spec section 6, as a predicate
on file names. Used only to compare the Stitcher's actual output name
against the claim. -/
def organizedConventionName (name : String) : Bool :=
  let cs := name.toList
  isSixDigits (cs.take 6) &&
    (cs.drop 6 == ".mp4".toList || cs.drop 6 == ".mkv".toList ||
      (match cs.drop 6 with
       | '_' :: r =>
         !(r.takeWhile Char.isDigit).isEmpty &&
           (r.dropWhile Char.isDigit == ".mp4".toList ||
             r.dropWhile Char.isDigit == ".mkv".toList)
       | _ => false))

/-- Scenario probe for C5: homogeneous signatures, successful concat. -/
def prC5 : Probe where
  duration := fun _ => 3
  streamInfo := fun _ => ⟨some "hevc", some "yuv420p", some "bt709"⟩
  concatOk := fun _ => true
  concatContent := fun _ => 99

/-- Day contents of the C5 scenario: one mergeable two-clip run. -/
def fsC5 : FS :=
  [("120000.mp4", 1), ("120005.mp4", 2)]

/-- C5 counterexample: the merged output is named
`20240101_120000.mp4` — derived from the run's first clip's start time,
but NOT of the claimed organized form `<6-digit-time>[_<counter>].ext`;
after the merge the day directory holds no conventionally named file at
all, falsifying the claim's naming clause. -/
theorem C5_counterexample :
    stitch_day_directory prC5 2024 1 1 fsC5 30 =
      Except.ok ⟨[("20240101_120000.mp4", 99)],
        ["Stitching 2 clips starting at 20240101_120000", "Files to stitch:",
          "  120000.mp4", "  120005.mp4"], 1⟩ ∧
    organizedConventionName "20240101_120000.mp4" = false ∧
    (∀ nm ∈ ([("20240101_120000.mp4", 99)] : FS).map Prod.fst,
      organizedConventionName nm = false) ∧
    organizedConventionName "120000.mp4" = true := by
  have hclips : sortByStart (discoverClips 2024 1 1 (fsC5.map Prod.fst)) =
      [⟨"120000.mp4", 43200⟩, ⟨"120005.mp4", 43205⟩] := by decide
  have hs : startsOf [(⟨"120000.mp4", 43200⟩ : Clip), ⟨"120005.mp4", 43205⟩] =
      [43200, 43205] := by decide
  have hd : durationsOf prC5 [⟨"120000.mp4", 43200⟩, ⟨"120005.mp4", 43205⟩] =
      [3, 3] := by decide
  have hseqs : seqsOf prC5 30 [⟨"120000.mp4", 43200⟩, ⟨"120005.mp4", 43205⟩] =
      [[0, 1]] := by
    unfold seqsOf
    rw [hs, hd]
    norm_num [group_sequences, gsStep, gapAt, List.range']
  refine ⟨?_, by decide, by decide, by decide⟩
  unfold stitch_day_directory
  rw [hclips, hseqs]
  decide

/-! ## C9: singleton runs are never merged or deleted -/

/-- A parsed clip keeps the candidate's file name. -/
lemma parseClip_name (y mo d : ℕ) (nm : String) (cl : Clip)
    (h : parseClip y mo d nm = some cl) : cl.name = nm := by
  unfold parseClip at h
  split at h
  · cases h
  · split at h
    · cases h
      rfl
    · cases h

/-- Names of successfully parsed candidates are distinct when the
candidates are. -/
lemma filterMap_parseClip_names_nodup (y mo d : ℕ) :
    ∀ l : List String, l.Nodup →
      ((l.filterMap (parseClip y mo d)).map (fun c => c.name)).Nodup := by
  intro l
  induction l with
  | nil => intro _; simp
  | cons a l ih =>
    intro h
    rw [List.nodup_cons] at h
    obtain ⟨ha, hl⟩ := h
    rw [List.filterMap_cons]
    cases hp : parseClip y mo d a with
    | none => exact ih hl
    | some cl =>
      simp only [List.map_cons]
      rw [List.nodup_cons]
      refine ⟨?_, ih hl⟩
      intro hmem
      rw [List.mem_map] at hmem
      obtain ⟨c0, hc0, hcn⟩ := hmem
      rw [List.mem_filterMap] at hc0
      obtain ⟨b, hb, hpb⟩ := hc0
      have hbn : c0.name = b := parseClip_name y mo d b c0 hpb
      have han : cl.name = a := parseClip_name y mo d a cl hp
      rw [han, hbn] at hcn
      exact ha (hcn ▸ hb)

/-- No name ends with both `.mp4` and `.mkv`. -/
lemma mp4_mkv_not_both (n : String) :
    ¬(".mp4".toList.isSuffixOf n.toList = true ∧
      ".mkv".toList.isSuffixOf n.toList = true) := by
  intro h
  obtain ⟨h1, h2⟩ := h
  rw [List.isSuffixOf_iff_suffix, List.suffix_iff_eq_drop] at h1 h2
  have l1 : (".mp4".toList : List Char).length = 4 := by decide
  have l2 : (".mkv".toList : List Char).length = 4 := by decide
  rw [l1] at h1
  rw [l2] at h2
  have heq : (".mp4".toList : List Char) = ".mkv".toList := h1.trans h2.symm
  exact absurd heq (by decide)

/-- The discovery candidate list has no duplicates when the directory
listing has none. -/
lemma discoveryCandidates_nodup (children : List String) (h : children.Nodup) :
    (discoveryCandidates children).Nodup := by
  unfold discoveryCandidates globSorted
  rw [List.nodup_append]
  refine ⟨?_, ?_, ?_⟩
  · exact (List.perm_insertionSort _ _).nodup_iff.mpr (h.filter _)
  · exact (List.perm_insertionSort _ _).nodup_iff.mpr (h.filter _)
  · rw [List.disjoint_left]
    intro a ha hb
    have ha2 := (List.perm_insertionSort _ _).mem_iff.mp ha
    have hb2 := (List.perm_insertionSort _ _).mem_iff.mp hb
    rw [List.mem_filter] at ha2 hb2
    exact mp4_mkv_not_both a ⟨ha2.2, hb2.2⟩

/-- The sorted, discovered clips of a duplicate-free directory listing
carry pairwise distinct file names. -/
lemma clips_names_nodup (y mo d : ℕ) (children : List String) (h : children.Nodup) :
    ((sortByStart (discoverClips y mo d children)).map (fun c => c.name)).Nodup := by
  have h1 : ((discoverClips y mo d children).map (fun c => c.name)).Nodup :=
    filterMap_parseClip_names_nodup y mo d _ (discoveryCandidates_nodup children h)
  have hperm : List.Perm (sortByStart (discoverClips y mo d children))
      (discoverClips y mo d children) := List.perm_insertionSort _ _
  exact ((hperm.map _).nodup_iff).mpr h1

/-- C9 (amended): a run of length 1 never triggers a merge or deletion —
as long as no run that attempts a merge (length at least 2 with
homogeneous signatures) has its temp or final output name collide with
the singleton clip's file name, the clip's file (content included) is
exactly as it was before the Stitcher's pass over the day. Short runs
and mismatched runs never produce output names, so they impose no
condition. (The counterexample shows the collision proviso is
necessary: with a negative `max_gap` a merged run's renamed output can
overwrite a singleton's file.) -/
theorem C9_singleton_run_untouched (pr : Probe) (y mo d : ℕ) (fs : FS) (g : ℚ)
    (i : ℕ) (clips : List Clip) (c : String)
    (hclips : clips = sortByStart (discoverClips y mo d (fs.map Prod.fst)))
    (hname : c = (clips.getD i defaultClip).name)
    (hnodup : (fs.map Prod.fst).Nodup)
    (hmem : [i] ∈ seqsOf pr g clips)
    (hcoll : ∀ seq ∈ seqsOf pr g clips, 2 ≤ seq.length →
      runMismatches pr clips seq = [] →
      c ≠ tempNameOf y mo d clips seq ∧ c ≠ finalNameOf y mo d clips seq) :
    readFile (exceptState (stitch_day_directory pr y mo d fs g)).fs c =
      readFile fs c := by
  unfold stitch_day_directory
  rw [← hclips]
  refine processRuns_frame pr y mo d clips c (seqsOf pr g clips) ⟨fs, [], 0⟩ ?_
  intro seq hseq
  by_cases hl : seq.length < 2
  · exact Or.inl hl
  · by_cases hmis : runMismatches pr clips seq = []
    case neg => exact Or.inr (Or.inl hmis)
    refine Or.inr (Or.inr ⟨?_, (hcoll seq hseq (by omega) hmis).1,
      (hcoll seq hseq (by omega) hmis).2⟩)
    intro hc
    have hclipsne : clips ≠ [] := by
      intro he
      have h0 : seqsOf pr g ([] : List Clip) = [[0]] := rfl
      rw [he, h0] at hseq
      simp at hseq
      rw [hseq] at hl
      exact hl (by simp)
    have hpos : 0 < clips.length := List.length_pos.mpr hclipsne
    obtain ⟨hflat, _, _, _⟩ := group_sequences_spec clips.length (startsOf clips)
      (durationsOf pr clips) g hpos
    have hflatS : (seqsOf pr g clips).flatten = List.range clips.length := hflat
    have hin : i < clips.length := by
      have hmemf : i ∈ (seqsOf pr g clips).flatten :=
        List.mem_flatten.mpr ⟨[i], hmem, by simp⟩
      rw [hflatS] at hmemf
      exact List.mem_range.mp hmemf
    have hnodupflat : (seqsOf pr g clips).flatten.Nodup := by
      rw [hflatS]
      exact List.nodup_range _
    have hpair := (List.nodup_flatten.mp hnodupflat).2
    unfold seqPathsOf at hc
    rw [List.mem_map] at hc
    obtain ⟨j, hj, hjc⟩ := hc
    have hjn : j < clips.length := by
      have hmemf : j ∈ (seqsOf pr g clips).flatten :=
        List.mem_flatten.mpr ⟨seq, hseq, hj⟩
      rw [hflatS] at hmemf
      exact List.mem_range.mp hmemf
    have hne : seq ≠ [i] := by
      intro he
      rw [he] at hl
      exact hl (by simp)
    have hdisj : List.Disjoint [i] seq :=
      List.Pairwise.forall (fun a b hab => hab.symm) hpair hmem hseq
        (fun he => hne he.symm)
    have hinotin : i ∉ seq := fun hi =>
      (List.disjoint_left.mp hdisj) (by simp) hi
    have hji : j ≠ i := fun he => hinotin (he ▸ hj)
    have hnames : (clips.map (fun cl => cl.name)).Nodup := by
      have := clips_names_nodup y mo d (fs.map Prod.fst) hnodup
      rwa [← hclips] at this
    have hgetj : clips.getD j defaultClip = clips[j] := by
      rw [List.getD_eq_getElem?_getD, List.getElem?_eq_getElem hjn]
      rfl
    have hgeti : clips.getD i defaultClip = clips[i] := by
      rw [List.getD_eq_getElem?_getD, List.getElem?_eq_getElem hin]
      rfl
    rw [hname, hgetj, hgeti] at hjc
    have hjn2 : j < (clips.map (fun cl => cl.name)).length := by
      rw [List.length_map]
      exact hjn
    have hin2 : i < (clips.map (fun cl => cl.name)).length := by
      rw [List.length_map]
      exact hin
    have hmapeq : (clips.map (fun cl => cl.name))[j] =
        (clips.map (fun cl => cl.name))[i] := by
      rw [List.getElem_map, List.getElem_map]
      exact hjc
    exact hji (hnames.getElem_inj_iff.mp hmapeq)

/-- Scenario probe for C9: equal signatures, successful concat. The
relevant durations: half a second for nothing, 3 s for the singleton
clip, 10 s for the first merged clip. -/
def prC9 : Probe where
  duration := fun n => if n = "20240101_120000.mp4" then 3
    else if n = "9_120000.mp4" then 10 else 2
  streamInfo := fun _ => ⟨some "hevc", some "yuv420p", some "bt709"⟩
  concatOk := fun _ => true
  concatContent := fun _ => 99

/-- Day contents of the C9 scenario: a leftover output-named file, and
two clips parsed at the same and two seconds later start times. -/
def fsC9 : FS :=
  [("20240101_120000.mp4", 5), ("9_120000.mp4", 6), ("9_120002.mp4", 7)]

/-- The sorted clips of the C9 scenario (all three parse; discovery
order is preserved by the stable sort on equal starts). -/
def clipsC9 : List Clip :=
  [⟨"20240101_120000.mp4", 43200⟩, ⟨"9_120000.mp4", 43200⟩, ⟨"9_120002.mp4", 43202⟩]

/-- C9 counterexample: with `--gap -5`, the clip
`20240101_120000.mp4` forms a run of length 1 (the gap to its
same-second neighbour is -3 > -5), yet after the pass its content has
been replaced: the neighbouring run `[1, 2]` merges and the rename of
`stitched_20240101_120000.mp4` onto `20240101_120000.mp4` overwrites the
singleton's file. The claim "no filesystem modification of that clip
ever occurs" is false as stated. -/
theorem C9_counterexample :
    seqsOf prC9 (-5) clipsC9 = [[0], [1, 2]] ∧
    (clipsC9.getD 0 defaultClip).name = "20240101_120000.mp4" ∧
    readFile fsC9 "20240101_120000.mp4" = some 5 ∧
    stitch_day_directory prC9 2024 1 1 fsC9 (-5) =
      Except.ok ⟨[("20240101_120000.mp4", 99)],
        ["Stitching 2 clips starting at 20240101_120000", "Files to stitch:",
          "  9_120000.mp4", "  9_120002.mp4"], 1⟩ ∧
    readFile (exceptState (stitch_day_directory prC9 2024 1 1 fsC9 (-5))).fs
      "20240101_120000.mp4" = some 99 := by
  have hclips : sortByStart (discoverClips 2024 1 1 (fsC9.map Prod.fst)) = clipsC9 := by
    decide
  have hs : startsOf clipsC9 = [43200, 43200, 43202] := by decide
  have hd : durationsOf prC9 clipsC9 = [3, 10, 2] := by decide
  have hseqs : seqsOf prC9 (-5) clipsC9 = [[0], [1, 2]] := by
    unfold seqsOf
    rw [hs, hd]
    norm_num [group_sequences, gsStep, gapAt, List.range', clipsC9]
  have hday : stitch_day_directory prC9 2024 1 1 fsC9 (-5) =
      Except.ok ⟨[("20240101_120000.mp4", 99)],
        ["Stitching 2 clips starting at 20240101_120000", "Files to stitch:",
          "  9_120000.mp4", "  9_120002.mp4"], 1⟩ := by
    unfold stitch_day_directory
    rw [hclips, hseqs]
    decide
  refine ⟨hseqs, by decide, by decide, hday, ?_⟩
  rw [hday]
  decide

/-- Witness for C9 at a concrete input: in the ordinary two-run day of
the C3 scenario filesystem (all concats succeeding), the singleton run
does not arise; take instead a day with runs `[[0, 1], [2]]` — the
singleton clip `110000.mp4` keeps its content across the pass. -/
def prC9W : Probe where
  duration := fun n => if n = "100000.mp4" then 20 else if n = "100025.mp4" then 5
    else 7
  streamInfo := fun _ => ⟨some "hevc", some "yuv420p", some "bt709"⟩
  concatOk := fun _ => true
  concatContent := fun _ => 99

/-- Day contents of the C9 witness scenario. -/
def fsC9W : FS :=
  [("100000.mp4", 1), ("100025.mp4", 2), ("110000.mp4", 3)]

/-- The sorted clips of the C9 witness scenario. -/
def clipsC9W : List Clip :=
  [⟨"100000.mp4", 36000⟩, ⟨"100025.mp4", 36025⟩, ⟨"110000.mp4", 39600⟩]

/-- Witness for C9: the singleton run `[2]` of the witness day leaves
`110000.mp4` untouched. -/
theorem C9_singleton_run_untouched_witness :
    readFile (exceptState (stitch_day_directory prC9W 2024 1 1 fsC9W 30)).fs
      "110000.mp4" = readFile fsC9W "110000.mp4" := by
  have hclips : clipsC9W = sortByStart (discoverClips 2024 1 1 (fsC9W.map Prod.fst)) := by
    decide
  have hs : startsOf clipsC9W = [36000, 36025, 39600] := by decide
  have hd : durationsOf prC9W clipsC9W = [20, 5, 7] := by decide
  have hseqs : seqsOf prC9W 30 clipsC9W = [[0, 1], [2]] := by
    unfold seqsOf
    rw [hs, hd]
    norm_num [group_sequences, gsStep, gapAt, List.range', clipsC9W]
  refine C9_singleton_run_untouched prC9W 2024 1 1 fsC9W 30 2 clipsC9W
    "110000.mp4" hclips (by decide) (by decide) ?_ ?_
  · rw [hseqs]
    simp
  · rw [hseqs]
    decide

/-! ## C7: what discovery actually considers, and in which order -/

/-- The code-point lexicographic comparison is total. -/
lemma lexLe_total : ∀ a b : List Char, lexLe a b = true ∨ lexLe b a = true := by
  intro a
  induction a with
  | nil => intro b; exact Or.inl rfl
  | cons x xs ih =>
    intro b
    cases b with
    | nil => exact Or.inr rfl
    | cons y ys =>
      by_cases hxy : x = y
      · subst hxy
        rcases ih ys with h | h
        · exact Or.inl (by simp [lexLe, h])
        · exact Or.inr (by simp [lexLe, h])
      · rcases lt_trichotomy x y with h1 | h1 | h1
        · exact Or.inl (by simp [lexLe, hxy, h1])
        · exact absurd h1 hxy
        · exact Or.inr (by simp [lexLe, Ne.symm hxy, h1])

/-- The code-point lexicographic comparison is transitive. -/
lemma lexLe_trans : ∀ a b c : List Char,
    lexLe a b = true → lexLe b c = true → lexLe a c = true := by
  intro a
  induction a with
  | nil => intro b c _ _; rfl
  | cons x xs ih =>
    intro b c hab hbc
    cases b with
    | nil => simp [lexLe] at hab
    | cons y ys =>
      cases c with
      | nil => simp [lexLe] at hbc
      | cons z zs =>
        by_cases hxy : x = y <;> by_cases hyz : y = z
        · subst hxy; subst hyz
          simp only [lexLe, if_pos rfl] at hab hbc ⊢
          exact ih ys zs hab hbc
        · subst hxy
          simp only [lexLe, if_pos rfl, if_neg hyz] at hbc ⊢
          exact hbc
        · subst hyz
          simp only [lexLe, if_neg hxy] at hab ⊢
          exact hab
        · simp only [lexLe, if_neg hxy, if_neg hyz, decide_eq_true_eq] at hab hbc
          have hxz : x < z := lt_trans hab hbc
          have hxz' : x ≠ z := ne_of_lt hxz
          simp [lexLe, hxz', hxz]

/-- Totality instance for the name order used by `sorted(...)`. -/
instance : IsTotal String (fun a b => nameLe a b = true) :=
  ⟨fun a b => lexLe_total a.toList b.toList⟩

/-- Transitivity instance for the name order used by `sorted(...)`. -/
instance : IsTrans String (fun a b => nameLe a b = true) :=
  ⟨fun a b c => lexLe_trans a.toList b.toList c.toList⟩

/-- Filtering a disjunction of two incompatible predicates is, up to
permutation, filtering each in turn. -/
lemma filter_or_perm (p q : String → Bool)
    (hdisj : ∀ x, ¬(p x = true ∧ q x = true)) :
    ∀ l : List String,
      List.Perm (l.filter (fun x => p x || q x)) (l.filter p ++ l.filter q) := by
  intro l
  induction l with
  | nil => simp
  | cons a l ih =>
    by_cases hp : p a = true
    · have hq : q a = false := by
        cases hqv : q a
        · rfl
        · exact absurd ⟨hp, hqv⟩ (hdisj a)
      simp only [List.filter_cons, hp, hq, Bool.true_or, List.cons_append]
      exact ih.cons a
    · have hp' : p a = false := by simp [hp]
      by_cases hq : q a = true
      · simp only [List.filter_cons, hp', hq, Bool.false_or]
        exact (ih.cons a).trans List.perm_middle.symm
      · have hq' : q a = false := by simp [hq]
        simpa [List.filter_cons, hp', hq'] using ih

/-- Modelled from the spec (the reading claimed in C7): a discovery that
would take all direct children whose extension is `mp4` or `mkv`
case-insensitively, in one single filename-sorted pass. Used only for
comparison against the code's actual discovery. -/
def claimedDiscovery (children : List String) : List String :=
  List.insertionSort (fun a b => nameLe a b = true)
    (children.filter (fun n =>
      ".mp4".toList.isSuffixOf (n.toList.map Char.toLower) ||
        ".mkv".toList.isSuffixOf (n.toList.map Char.toLower)))

/-- C7 counterexample: with children `100000.mkv`, `110000.MP4`,
`120000.mp4`, the code's discovery yields `[120000.mp4, 100000.mkv]` —
the upper-case `110000.MP4` is NOT discovered (POSIX glob is
case-sensitive) and the mp4 pass precedes the mkv pass instead of one
filename-sorted order. The claimed discovery differs. -/
theorem C7_counterexample :
    discoveryCandidates ["100000.mkv", "110000.MP4", "120000.mp4"] =
      ["120000.mp4", "100000.mkv"] ∧
    claimedDiscovery ["100000.mkv", "110000.MP4", "120000.mp4"] =
      ["100000.mkv", "110000.MP4", "120000.mp4"] ∧
    discoveryCandidates ["100000.mkv", "110000.MP4", "120000.mp4"] ≠
      claimedDiscovery ["100000.mkv", "110000.MP4", "120000.mp4"] := by
  refine ⟨by decide, by decide, by decide⟩

/-- C7 (amended): Stitcher discovery considers exactly the direct
children whose extension is the literal lowercase `mp4` or `mkv`
(case-sensitively, as POSIX `pathlib.glob` matches), processing first
all `*.mp4` children in filename-sorted order, then all `*.mkv` children
in filename-sorted order. -/
theorem C7_discovery_considers_lowercase_ext_in_two_sorted_passes
    (children : List String) :
    List.Perm (discoveryCandidates children)
      (children.filter (fun n => ".mp4".toList.isSuffixOf n.toList ||
        ".mkv".toList.isSuffixOf n.toList)) ∧
    List.Perm (globSorted children "mp4")
      (children.filter (fun n => ".mp4".toList.isSuffixOf n.toList)) ∧
    List.Perm (globSorted children "mkv")
      (children.filter (fun n => ".mkv".toList.isSuffixOf n.toList)) ∧
    (globSorted children "mp4").Sorted (fun a b => nameLe a b = true) ∧
    (globSorted children "mkv").Sorted (fun a b => nameLe a b = true) := by
  have hmp4 : List.Perm (globSorted children "mp4")
      (children.filter (fun n => ".mp4".toList.isSuffixOf n.toList)) :=
    List.perm_insertionSort _ _
  have hmkv : List.Perm (globSorted children "mkv")
      (children.filter (fun n => ".mkv".toList.isSuffixOf n.toList)) :=
    List.perm_insertionSort _ _
  refine ⟨?_, hmp4, hmkv, ?_, ?_⟩
  · have hsplit := filter_or_perm (fun n => ".mp4".toList.isSuffixOf n.toList)
      (fun n => ".mkv".toList.isSuffixOf n.toList)
      (fun n => mp4_mkv_not_both n) children
    exact (hmp4.append hmkv).trans hsplit.symm
  · exact List.sorted_insertionSort _ _
  · exact List.sorted_insertionSort _ _

/-! ## Organizer (`organize_dji_videos`, stitch.py lines 40-66) -/

/-- Model of the default `--pattern` glob `DJI_*.[mM][pP]4` (stitch.py
line 233) under POSIX fnmatch semantics: the literal case-sensitive
`DJI_`, anything, then a dot and the three characters `mp4` with the
letters in any case. An `.mkv` name can never match. -/
def fnmatchDefaultGlob (name : String) : Bool :=
  "DJI_".toList.isPrefixOf name.toList && decide (8 ≤ name.toList.length) &&
    (".mp4".toList.isSuffixOf name.toList || ".mP4".toList.isSuffixOf name.toList ||
      ".Mp4".toList.isSuffixOf name.toList || ".MP4".toList.isSuffixOf name.toList)

/-- Model of `ORG_PATTERN` (stitch.py lines 23-26), the case-insensitive
anchored regex `DJI_(\d\x7b8\x7d)(\d\x7b6\x7d)_\d\x7b4\x7d_D\.(mp4|mkv)`:
on a match, the captured date and time digit groups and the lowercased
extension (stitch.py line 52). -/
def orgMatch (name : String) : Option (List Char × List Char × List Char) :=
  let cs := name.toList
  if cs.length = 29 ∧
      (cs.take 4).map Char.toLower = "dji_".toList ∧
      ((cs.drop 4).take 8).all Char.isDigit = true ∧
      ((cs.drop 12).take 6).all Char.isDigit = true ∧
      cs.getD 18 ' ' = '_' ∧
      ((cs.drop 19).take 4).all Char.isDigit = true ∧
      cs.getD 23 ' ' = '_' ∧
      Char.toLower (cs.getD 24 ' ') = 'd' ∧
      cs.getD 25 ' ' = '.' ∧
      ((cs.drop 26).map Char.toLower = "mp4".toList ∨
        (cs.drop 26).map Char.toLower = "mkv".toList) then
    some ((cs.drop 4).take 8, (cs.drop 12).take 6, (cs.drop 26).map Char.toLower)
  else none

/-- The `k`-th candidate destination name tried by the collision loop
(stitch.py lines 56-61): `HHMMSS.ext` for `k = 0`, then `HHMMSS_k.ext`. -/
def candName (time ext : List Char) (k : ℕ) : String :=
  if k = 0 then time.asString ++ "." ++ ext.asString
  else time.asString ++ "_" ++ decRepr k ++ "." ++ ext.asString

/-- The `while dest.exists()` collision loop: try candidate `k`,
`k + 1`, … until one is not among the existing names. The fuel (one more
than the number of existing files) is ample since candidates are
pairwise distinct. -/
def findFree (existing : List String) (time ext : List Char) : ℕ → ℕ → String
  | 0, k => candName time ext k
  | fuel + 1, k =>
    if candName time ext k ∈ existing then findFree existing time ext fuel (k + 1)
    else candName time ext k

/-- A destination directory `root/YYYY/MM/DD` as its three components
(stitch.py lines 53-54). -/
def destDirOf (date : List Char) : String × String × String :=
  ((date.take 4).asString, ((date.drop 4).take 2).asString, (date.drop 6).asString)

/-- The destination tree: the set of (directory, file name) pairs below
the date folders. -/
abbrev DestTree := List ((String × String × String) × String)

/-- The file names already present in one destination directory. -/
def namesAt (tree : DestTree) (dir : String × String × String) : List String :=
  (tree.filter (fun e => e.1 == dir)).map (fun e => e.2)

/-- One recorded move of the Organizer. -/
structure OrgMove where
  src : String
  destDir : String × String × String
  destName : String
deriving DecidableEq, Repr

/-- `organize_dji_videos` (stitch.py lines 40-66): iterate over the
`rglob(pattern)` matches (the source names satisfying `patternOk`, in
scan order), keep those matching `ORG_PATTERN`, and move each into its
date directory under the first collision-free candidate name. Returns
the final tree, the moves in order, and the count moved. -/
def organize_dji_videos (patternOk : String → Bool) :
    List String → DestTree → DestTree × List OrgMove × ℕ
  | [], tree => (tree, [], 0)
  | src :: rest, tree =>
    if patternOk src then
      match orgMatch src with
      | some (date, time, ext) =>
        let dir := destDirOf date
        let nm := findFree (namesAt tree dir) time ext ((namesAt tree dir).length + 1) 0
        let out := organize_dji_videos patternOk rest (tree ++ [(dir, nm)])
        (out.1, ⟨src, dir, nm⟩ :: out.2.1, out.2.2 + 1)
      | none => organize_dji_videos patternOk rest tree
    else organize_dji_videos patternOk rest tree

/-- C6 (code bug): the module docstring and `ORG_PATTERN` cover both
extensions — the regex does match the convention-named `.mkv` file — but
the default `--pattern` glob `DJI_*.[mM][pP]4` never matches an `.mkv`
name, so with the default pattern the Organizer ignores such a file
entirely and moves nothing; a `.MP4` file of the same convention is
moved. -/
theorem C6_default_pattern_misses_mkv :
    orgMatch "DJI_20240101120000_0001_D.mkv" =
      some ("20240101".toList, "120000".toList, "mkv".toList) ∧
    fnmatchDefaultGlob "DJI_20240101120000_0001_D.mkv" = false ∧
    organize_dji_videos fnmatchDefaultGlob ["DJI_20240101120000_0001_D.mkv"] [] =
      ([], [], 0) ∧
    fnmatchDefaultGlob "DJI_20240101120000_0001_D.MP4" = true ∧
    organize_dji_videos fnmatchDefaultGlob ["DJI_20240101120000_0001_D.MP4"] [] =
      ([(("2024", "01", "01"), "120000.mp4")],
        [⟨"DJI_20240101120000_0001_D.MP4", ("2024", "01", "01"), "120000.mp4"⟩], 1) := by
  refine ⟨by decide, by decide, by decide, by decide, by decide⟩

/-! ## C8: collision resolution of the Organizer -/

/-- The accumulator of the digit loop is a plain right append. -/
lemma decDigitsAux_append : ∀ (fuel n : ℕ) (acc : List Char),
    decDigitsAux fuel n acc = decDigitsAux fuel n [] ++ acc := by
  intro fuel
  induction fuel with
  | zero => intro n acc; rfl
  | succ fuel ih =>
    intro n acc
    unfold decDigitsAux
    by_cases h : n < 10
    · simp [h]
    · rw [if_neg h, if_neg h, ih (n / 10) (Nat.digitChar (n % 10) :: acc),
        ih (n / 10) [Nat.digitChar (n % 10)]]
      simp

/-- Reading one more trailing digit. -/
lemma digitsToNat_concat (l : List Char) (c : Char) :
    digitsToNat (l ++ [c]) = 10 * digitsToNat l + (c.toNat - 48) := by
  unfold digitsToNat
  rw [List.foldl_append]
  rfl

/-- A single decimal digit character reads back as its value. -/
lemma digitVal_digitChar (m : ℕ) (h : m < 10) : (Nat.digitChar m).toNat - 48 = m := by
  interval_cases m <;> rfl

/-- The decimal digit loop is correct: reading the digits back with
`int(...)` gives the number. -/
lemma digitsToNat_decDigitsAux : ∀ (fuel n : ℕ), n ≤ fuel →
    digitsToNat (decDigitsAux fuel n []) = n := by
  intro fuel
  induction fuel with
  | zero =>
    intro n hn
    have h0 : n = 0 := by omega
    subst h0
    rfl
  | succ fuel ih =>
    intro n hn
    unfold decDigitsAux
    by_cases h : n < 10
    · rw [if_pos h]
      show digitsToNat [Nat.digitChar n] = n
      have heq : digitsToNat [Nat.digitChar n] = 10 * 0 + ((Nat.digitChar n).toNat - 48) := rfl
      rw [heq, digitVal_digitChar n h]
      omega
    · rw [if_neg h, decDigitsAux_append, digitsToNat_concat]
      have hdiv : n / 10 < n := Nat.div_lt_self (by omega) (by omega)
      rw [ih (n / 10) (by omega), digitVal_digitChar (n % 10) (Nat.mod_lt n (by omega))]
      omega

/-- Decimal representations of distinct numbers differ. -/
lemma decDigits_inj (a b : ℕ) (h : decDigits a = decDigits b) : a = b := by
  have ha := digitsToNat_decDigitsAux a a le_rfl
  have hb := digitsToNat_decDigitsAux b b le_rfl
  unfold decDigits at h
  rw [h, hb] at ha
  exact ha.symm

/-- The candidate destination names `base`, `base_1`, `base_2`, … are
pairwise distinct. -/
lemma candName_inj (time ext : List Char) (k1 k2 : ℕ)
    (h : candName time ext k1 = candName time ext k2) : k1 = k2 := by
  have hd := congrArg String.data h
  unfold candName decRepr at hd
  by_cases h1 : k1 = 0 <;> by_cases h2 : k2 = 0
  · rw [h1, h2]
  · rw [if_pos h1, if_neg h2] at hd
    simp only [String.data_append, List.append_assoc] at hd
    have hcontra := List.append_cancel_left hd
    simp at hcontra
  · rw [if_neg h1, if_pos h2] at hd
    simp only [String.data_append, List.append_assoc] at hd
    have hcontra := List.append_cancel_left hd
    simp at hcontra
  · rw [if_neg h1, if_neg h2] at hd
    simp only [String.data_append, List.append_assoc] at hd
    have h3 := List.append_cancel_left hd
    have h4 := List.append_cancel_left h3
    have h5 := List.append_cancel_right h4
    exact decDigits_inj k1 k2 h5

/-- The collision loop returns the first free candidate: if candidates
`k, …, k+m-1` are taken and `k+m` is free, with enough fuel the loop
lands exactly on candidate `k+m`. -/
lemma findFree_spec (existing : List String) (time ext : List Char) :
    ∀ (m fuel k : ℕ), m < fuel →
    (∀ j, j < m → candName time ext (k + j) ∈ existing) →
    candName time ext (k + m) ∉ existing →
    findFree existing time ext fuel k = candName time ext (k + m) := by
  intro m
  induction m with
  | zero =>
    intro fuel k hf _ hfree
    cases fuel with
    | zero => omega
    | succ f =>
      unfold findFree
      rw [if_neg (by simpa using hfree)]
      simp
  | succ m ih =>
    intro fuel k hf hin hfree
    cases fuel with
    | zero => omega
    | succ f =>
      unfold findFree
      have h0 : candName time ext k ∈ existing := by
        have := hin 0 (by omega)
        simpa using this
      rw [if_pos h0]
      have hin2 : ∀ j, j < m → candName time ext (k + 1 + j) ∈ existing := by
        intro j hj
        have := hin (j + 1) (by omega)
        have harg : k + (j + 1) = k + 1 + j := by omega
        rwa [harg] at this
      have hfree2 : candName time ext (k + 1 + m) ∉ existing := by
        have harg : k + (m + 1) = k + 1 + m := by omega
        rwa [harg] at hfree
      have harg : k + (m + 1) = k + 1 + m := by omega
      rw [harg]
      exact ih f (k + 1) (by omega) hin2 hfree2

/-- Appending one file to a directory appends its name to that
directory's listing. -/
lemma namesAt_append_one (tree : DestTree) (dir : String × String × String)
    (nm : String) : namesAt (tree ++ [(dir, nm)]) dir = namesAt tree dir ++ [nm] := by
  unfold namesAt
  rw [List.filter_append, List.map_append]
  simp

/-- Inductive engine for C8: if the destination directory holds exactly
the candidates below `i`, moving a batch of same-base sources assigns
candidates `i, i+1, …` in order. -/
lemma organize_same_base (patternOk : String → Bool) (date time ext : List Char) :
    ∀ (srcs : List String) (tree : DestTree) (i : ℕ),
    (∀ s ∈ srcs, patternOk s = true) →
    (∀ s ∈ srcs, orgMatch s = some (date, time, ext)) →
    (∀ k, (candName time ext k ∈ namesAt tree (destDirOf date)) ↔ k < i) →
    ((organize_dji_videos patternOk srcs tree).2.1).map (fun m => m.destName) =
      (List.range' i srcs.length).map (candName time ext) ∧
    (organize_dji_videos patternOk srcs tree).2.2 = srcs.length := by
  intro srcs
  induction srcs with
  | nil => intro tree i _ _ _; exact ⟨rfl, rfl⟩
  | cons src rest ih =>
    intro tree i hp hm hcand
    have hp1 : patternOk src = true := hp src (by simp)
    have hm1 : orgMatch src = some (date, time, ext) := hm src (by simp)
    have hlen : i ≤ (namesAt tree (destDirOf date)).length := by
      have hsub : ((List.range i).map (candName time ext)) ⊆
          namesAt tree (destDirOf date) := by
        intro x hx
        rw [List.mem_map] at hx
        obtain ⟨k, hk, hkx⟩ := hx
        rw [List.mem_range] at hk
        exact hkx ▸ (hcand k).mpr hk
      have hnd : ((List.range i).map (candName time ext)).Nodup :=
        (List.nodup_range i).map (fun a b => candName_inj time ext a b)
      have := (List.subperm_of_subset hnd hsub).length_le
      simpa using this
    have hfind : findFree (namesAt tree (destDirOf date)) time ext
        ((namesAt tree (destDirOf date)).length + 1) 0 = candName time ext i := by
      have := findFree_spec (namesAt tree (destDirOf date)) time ext i
        ((namesAt tree (destDirOf date)).length + 1) 0 (by omega)
        (fun j hj => by simpa using (hcand j).mpr hj)
        (by simpa using fun hmem => absurd ((hcand i).mp (by simpa using hmem)) (by omega))
      simpa using this
    have hstep : organize_dji_videos patternOk (src :: rest) tree =
        ((organize_dji_videos patternOk rest
            (tree ++ [(destDirOf date, candName time ext i)])).1,
          (⟨src, destDirOf date, candName time ext i⟩ : OrgMove) ::
            (organize_dji_videos patternOk rest
              (tree ++ [(destDirOf date, candName time ext i)])).2.1,
          (organize_dji_videos patternOk rest
            (tree ++ [(destDirOf date, candName time ext i)])).2.2 + 1) := by
      conv_lhs => rw [organize_dji_videos]
      rw [hm1]
      simp only [hp1, if_true]
      rw [hfind]
    have hcand2 : ∀ k, (candName time ext k ∈
        namesAt (tree ++ [(destDirOf date, candName time ext i)]) (destDirOf date)) ↔
        k < i + 1 := by
      intro k
      rw [namesAt_append_one, List.mem_append]
      constructor
      · intro h
        rcases h with h | h
        · have := (hcand k).mp h
          omega
        · simp at h
          have := candName_inj time ext k i h
          omega
      · intro h
        by_cases hk : k < i
        · exact Or.inl ((hcand k).mpr hk)
        · have : k = i := by omega
          exact Or.inr (by simp [this])
    obtain ⟨ihmap, ihcount⟩ := ih (tree ++ [(destDirOf date, candName time ext i)])
      (i + 1) (fun s hs => hp s (by simp [hs])) (fun s hs => hm s (by simp [hs])) hcand2
    constructor
    · rw [hstep]
      simp only [List.map_cons]
      rw [ihmap]
      rw [List.length_cons, List.range'_succ]
      simp
    · rw [hstep]
      simp only [List.length_cons]
      omega

/-- C8: Organizer collision resolution never overwrites and is
deterministic and monotonic: N source files that all map to the same
base destination name `HHMMSS.ext`, moved into a destination directory
initially free of candidate names, receive exactly the names
`HHMMSS.ext`, `HHMMSS_1.ext`, …, `HHMMSS_⟨N-1⟩.ext` in the order they
are moved, each being the first free candidate; the assigned names are
pairwise distinct and none existed before. -/
theorem C8_collision_resolution (patternOk : String → Bool) (srcs : List String)
    (tree : DestTree) (date time ext : List Char)
    (hp : ∀ s ∈ srcs, patternOk s = true)
    (hm : ∀ s ∈ srcs, orgMatch s = some (date, time, ext))
    (hfresh : ∀ k, candName time ext k ∉ namesAt tree (destDirOf date)) :
    ((organize_dji_videos patternOk srcs tree).2.1).map (fun m => m.destName) =
      (List.range srcs.length).map (candName time ext) ∧
    (organize_dji_videos patternOk srcs tree).2.2 = srcs.length ∧
    (((organize_dji_videos patternOk srcs tree).2.1).map (fun m => m.destName)).Nodup ∧
    (∀ nm ∈ ((organize_dji_videos patternOk srcs tree).2.1).map (fun m => m.destName),
      nm ∉ namesAt tree (destDirOf date)) := by
  have h := organize_same_base patternOk date time ext srcs tree 0 hp hm
    (fun k => by simp [hfresh k])
  have hmap : ((organize_dji_videos patternOk srcs tree).2.1).map (fun m => m.destName) =
      (List.range srcs.length).map (candName time ext) := by
    rw [h.1, List.range_eq_range']
  refine ⟨hmap, h.2, ?_, ?_⟩
  · rw [hmap]
    exact (List.nodup_range _).map (fun a b => candName_inj time ext a b)
  · intro nm hnm
    rw [hmap, List.mem_map] at hnm
    obtain ⟨k, _, hk⟩ := hnm
    exact hk ▸ hfresh k

/-- Witness for C8 at a concrete input: three convention-named sources
of the same second (one with upper-case extension) go to `120000.mp4`,
`120000_1.mp4`, `120000_2.mp4`, in move order, with no overwrite. -/
theorem C8_collision_resolution_witness :
    ((organize_dji_videos fnmatchDefaultGlob
        ["DJI_20240101120000_0001_D.mp4", "DJI_20240101120000_0002_D.mp4",
          "DJI_20240101120000_0003_D.MP4"] []).2.1).map (fun m => m.destName) =
      (List.range 3).map (candName "120000".toList "mp4".toList) ∧
    (organize_dji_videos fnmatchDefaultGlob
        ["DJI_20240101120000_0001_D.mp4", "DJI_20240101120000_0002_D.mp4",
          "DJI_20240101120000_0003_D.MP4"] []).2.2 = 3 ∧
    (((organize_dji_videos fnmatchDefaultGlob
        ["DJI_20240101120000_0001_D.mp4", "DJI_20240101120000_0002_D.mp4",
          "DJI_20240101120000_0003_D.MP4"] []).2.1).map (fun m => m.destName)).Nodup ∧
    (∀ nm ∈ ((organize_dji_videos fnmatchDefaultGlob
        ["DJI_20240101120000_0001_D.mp4", "DJI_20240101120000_0002_D.mp4",
          "DJI_20240101120000_0003_D.MP4"] []).2.1).map (fun m => m.destName),
      nm ∉ namesAt [] (destDirOf "20240101".toList)) :=
  C8_collision_resolution fnmatchDefaultGlob
    ["DJI_20240101120000_0001_D.mp4", "DJI_20240101120000_0002_D.mp4",
      "DJI_20240101120000_0003_D.MP4"] [] "20240101".toList "120000".toList
    "mp4".toList (by decide) (by decide) (fun k => by simp [namesAt])

/-- Witness for C1 at a concrete input: three clips starting at seconds
0, 25, 100 with durations 20, 10, 5 and `max_gap = 30` (gaps 5 and 65)
group into runs `[[0, 1], [2]]`, and the partition properties hold. -/
theorem C1_group_sequences_partition_witness :
    group_sequences 3 [0, 25, 100] [20, 10, 5] 30 = [[0, 1], [2]] ∧
    ((group_sequences 3 [0, 25, 100] [20, 10, 5] 30).flatten = List.range 3 ∧
    (∀ s ∈ group_sequences 3 [0, 25, 100] [20, 10, 5] 30, s ≠ []) ∧
    (∀ s ∈ group_sequences 3 [0, 25, 100] [20, 10, 5] 30,
      s.Chain' (inRun [0, 25, 100] [20, 10, 5] 30)) ∧
    (group_sequences 3 [0, 25, 100] [20, 10, 5] 30).Chain'
      (runBoundary [0, 25, 100] [20, 10, 5] 30)) :=
  ⟨by norm_num [group_sequences, gsStep, gapAt, List.range'],
   C1_group_sequences_partition 3 [0, 25, 100] [20, 10, 5] 30 (by decide) rfl rfl
     (by norm_num [List.Sorted])⟩
